import Mathlib

/-!
Shallow embedding of the trace-cli telemetry agent (categorizer, activity
tracker, persistent store aggregation, focus monitor, shutdown guard),
translated from the Python sources, together with theorems settling the
specification claims about it.

Machine reals that the source manipulates (durations in seconds, scores,
memory/cpu readings) are modelled as rationals; Python `round` (banker's
rounding, ties to even) is modelled exactly on rationals.
-/

namespace TraceCli

/-- Python `round(q)` on an exact rational: round half to even. -/
def pyRoundInt (q : ℚ) : ℤ :=
  let f : ℤ := ⌊q⌋
  let r : ℚ := q - f
  if r < 1/2 then f
  else if 1/2 < r then f + 1
  else if Even f then f else f + 1

/-- Python `round(q, n)`: round to `n` decimal digits, half to even. -/
def pyRoundTo (n : ℕ) (q : ℚ) : ℚ :=
  (pyRoundInt (q * (10 : ℚ) ^ n) : ℚ) / (10 : ℚ) ^ n

theorem pyRoundInt_nonneg {q : ℚ} (hq : 0 ≤ q) : 0 ≤ pyRoundInt q := by
  unfold pyRoundInt
  have hf : (0 : ℤ) ≤ ⌊q⌋ := Int.floor_nonneg.mpr hq
  dsimp only
  split
  · exact hf
  · split
    · omega
    · split <;> omega

theorem pyRoundInt_le {q : ℚ} {B : ℤ} (hq : q ≤ (B : ℚ)) : pyRoundInt q ≤ B := by
  unfold pyRoundInt
  have hf : ⌊q⌋ ≤ B := by
    have := Int.floor_le_floor hq
    simpa using this
  dsimp only
  split
  · exact hf
  · rename_i hlt
    push_neg at hlt
    have hstrict : ⌊q⌋ < B := by
      by_contra hcon
      push_neg at hcon
      have hBf : B = ⌊q⌋ := le_antisymm hcon hf
      subst hBf
      have hfl : q - (⌊q⌋ : ℚ) ≤ 0 := by
        have := Int.floor_le q
        linarith
      linarith
    split
    · omega
    · split <;> omega

theorem pyRoundTo_nonneg {n : ℕ} {q : ℚ} (hq : 0 ≤ q) : 0 ≤ pyRoundTo n q := by
  unfold pyRoundTo
  have hpow : (0 : ℚ) < (10 : ℚ) ^ n := by positivity
  have h1 : 0 ≤ q * (10 : ℚ) ^ n := by positivity
  have h2 := pyRoundInt_nonneg h1
  have h3 : (0 : ℚ) ≤ (pyRoundInt (q * (10 : ℚ) ^ n) : ℚ) := by exact_mod_cast h2
  positivity

theorem pyRoundTo_le {n : ℕ} {q : ℚ} {B : ℤ} (hq : q ≤ (B : ℚ)) :
    pyRoundTo n q ≤ (B : ℚ) := by
  unfold pyRoundTo
  have hpow : (0 : ℚ) < (10 : ℚ) ^ n := by positivity
  have h1 : q * (10 : ℚ) ^ n ≤ ((B * (10 : ℤ) ^ n : ℤ) : ℚ) := by
    push_cast
    have := mul_le_mul_of_nonneg_right hq (le_of_lt hpow)
    simpa using this
  have h2 := pyRoundInt_le h1
  have h3 : (pyRoundInt (q * (10 : ℚ) ^ n) : ℚ) ≤ ((B * (10 : ℤ) ^ n : ℤ) : ℚ) := by
    exact_mod_cast h2
  rw [div_le_iff₀ hpow]
  push_cast at h3 ⊢
  linarith

/-!
## Categorization rule engine (src/categorizer.py)

Strings are handled as lists of lower-cased ASCII character codes: every
rule in the source is either a membership test on a lower-cased process
name or a case-insensitive regex search (`re.IGNORECASE`), so lowering
both the text and the pattern is an exact model.  The regexes used by the
source fall into five simple shapes (plain literal, `\b`-delimited word,
two literals separated by `\s*` or `\s+`, and a two-literal alternation),
which are modelled exactly.
-/

/-- ASCII-lowered character code (models Python `str.lower` /
`re.IGNORECASE` on the ASCII process names and patterns involved). -/
def lowCode (c : Char) : Nat :=
  let n := c.toNat
  if 65 ≤ n ∧ n ≤ 90 then n + 32 else n

/-- A string as its list of lower-cased character codes. -/
def codes (s : String) : List Nat := s.data.map lowCode

/-- Python `\s` / `str.strip` whitespace: space, tab, LF, VT, FF, CR. -/
def isSpaceCode (n : Nat) : Bool :=
  n == 32 || n == 9 || n == 10 || n == 11 || n == 12 || n == 13

/-- Python `str.strip()`: drop leading and trailing whitespace. -/
def stripCodes (l : List Nat) : List Nat :=
  ((l.dropWhile isSpaceCode).reverse.dropWhile isSpaceCode).reverse

/-- Regex `\w` (on lowered codes): letter, digit or underscore. -/
def isWordCode (n : Nat) : Bool :=
  (97 ≤ n && n ≤ 122) || (48 ≤ n && n ≤ 57) || n == 95

/-- `starts p l`: `p` is an initial segment of `l`. -/
def starts : List Nat → List Nat → Bool
  | [], _ => true
  | _ :: _, [] => false
  | p :: ps, x :: xs => p == x && starts ps xs

/-- `containsSeq p l`: `p` occurs as a contiguous subsequence of `l`
(models `re.search` for a plain literal pattern). -/
def containsSeq (pat : List Nat) : List Nat → Bool
  | [] => starts pat []
  | x :: xs => starts pat (x :: xs) || containsSeq pat xs

/-- Match of a `\b lit \b` pattern at the current position: the literal
is an initial segment and the next character (if any) is not a word
character.  The preceding-boundary check is done by the scanner. -/
def wordAt (lit : List Nat) (l : List Nat) : Bool :=
  starts lit l &&
    (match l.drop lit.length with
     | [] => true
     | n :: _ => !isWordCode n)

/-- Scanner for `\b lit \b` (models `re.search` for the word patterns);
`prevWord` records whether the previous character is a word character. -/
def wordScan (lit : List Nat) (prevWord : Bool) : List Nat → Bool
  | [] => false
  | x :: xs =>
      (!prevWord && wordAt lit (x :: xs)) || wordScan lit (isWordCode x) xs

/-- `lit` occurs after zero or more whitespace characters (`\s* lit`). -/
def afterSpaces (lit : List Nat) (l : List Nat) : Bool :=
  starts lit l ||
    (match l with
     | [] => false
     | x :: xs => isSpaceCode x && afterSpaces lit xs)

/-- `lit` occurs after one or more whitespace characters (`\s+ lit`). -/
def afterSpacesOne (lit : List Nat) : List Nat → Bool
  | [] => false
  | x :: xs => isSpaceCode x && afterSpaces lit xs

/-- Scanner for `a \s* b` (or `a \s+ b` when `plus` is true). -/
def gapScan (a b : List Nat) (plus : Bool) : List Nat → Bool
  | [] => false
  | x :: xs =>
      (starts a (x :: xs) &&
        (if plus then afterSpacesOne b ((x :: xs).drop a.length)
         else afterSpaces b ((x :: xs).drop a.length)))
      || gapScan a b plus xs

/-- The shapes of regex used by the categorizer's title patterns. -/
inductive Pat
  | lit (s : String)      -- plain case-insensitive literal
  | word (s : String)     -- \b s \b
  | gap (a b : String)    -- a \s* b
  | gapOne (a b : String) -- a \s+ b
  | alt (a b : String)    -- a | b, both plain literals

/-- `re.search` of one pattern against a (lowered) title. -/
def Pat.search : Pat → List Nat → Bool
  | .lit s, l => containsSeq (codes s) l
  | .word s, l => wordScan (codes s) false l
  | .gap a b, l => gapScan (codes a) (codes b) false l
  | .gapOne a b, l => gapScan (codes a) (codes b) true l
  | .alt a b, l => containsSeq (codes a) l || containsSeq (codes b) l

/-- Some pattern in the group matches the title. -/
def anySearch (pats : List Pat) (l : List Nat) : Bool :=
  pats.any (fun p => p.search l)

/-- The closed category set (`CATEGORIES`); each constructor denotes the
corresponding category string of the source. -/
inductive Category
  | development | browsing | research | communication | productivity
  | distraction | other
  deriving DecidableEq, Repr

/-- The full closed category set as a list. -/
def allCategories : List Category :=
  [.development, .browsing, .research, .communication, .productivity,
   .distraction, .other]

def DEV_PROCESSES : List String :=
  ["code.exe", "code - insiders.exe", "idea64.exe", "idea.exe",
   "pycharm64.exe", "pycharm.exe", "webstorm64.exe", "webstorm.exe",
   "rider64.exe", "devenv.exe", "sublime_text.exe", "notepad++.exe",
   "vim.exe", "nvim.exe", "gvim.exe", "mintty.exe", "windowsterminal.exe",
   "powershell.exe", "pwsh.exe", "cmd.exe", "conhost.exe", "wt.exe",
   "gitextensions.exe", "gitkraken.exe", "postman.exe", "insomnia.exe",
   "docker desktop.exe", "wsl.exe", "antigravity.exe", "python.exe",
   "pythonw.exe"]

def BROWSER_PROCESSES : List String :=
  ["chrome.exe", "msedge.exe", "firefox.exe", "brave.exe", "opera.exe",
   "vivaldi.exe", "arc.exe"]

def COMMUNICATION_PROCESSES : List String :=
  ["slack.exe", "discord.exe", "teams.exe", "zoom.exe", "skype.exe",
   "thunderbird.exe", "outlook.exe", "telegram.exe", "signal.exe"]

def PRODUCTIVITY_PROCESSES : List String :=
  ["winword.exe", "excel.exe", "powerpnt.exe", "onenote.exe", "notion.exe",
   "obsidian.exe", "typora.exe", "figma.exe", "acrobat.exe", "acrord32.exe"]

def DISTRACTION_PROCESSES : List String :=
  ["spotify.exe", "vlc.exe", "wmplayer.exe", "netflix.exe", "steam.exe",
   "epicgameslauncher.exe", "battle.net.exe", "tiktok.exe", "whatsapp.exe"]

def RESEARCH_TITLE_PATTERNS : List Pat :=
  [.gap "stack" "overflow", .lit "github.com", .lit "gitlab.com",
   .lit "documentation", .word "docs", .lit "developer.mozilla",
   .lit "mdn web docs", .lit "learn.microsoft", .lit "w3schools",
   .lit "geeksforgeeks", .lit "tutorialspoint", .lit "medium.com",
   .lit "dev.to", .gapOne "man" "page", .lit "pypi.org", .lit "npmjs.com",
   .lit "crates.io", .lit "wikipedia.org", .lit "arxiv.org"]

def DISTRACTION_TITLE_PATTERNS : List Pat :=
  [.lit "youtube", .lit "netflix", .lit "twitch.tv", .lit "disney+",
   .gap "prime" "video", .word "reddit", .alt "twitter" "x.com",
   .lit "facebook", .lit "instagram", .lit "tiktok", .lit "snapchat",
   .lit "pinterest", .lit "9gag", .lit "imgur", .lit "buzzfeed"]

def COMMUNICATION_TITLE_PATTERNS : List Pat :=
  [.lit "gmail", .lit "outlook.live", .lit "mail.yahoo", .lit "whatsapp",
   .lit "messenger", .lit "slack", .lit "discord",
   .gapOne "microsoft" "teams"]

def PRODUCTIVITY_TITLE_PATTERNS : List Pat :=
  [.gapOne "google" "docs", .gapOne "google" "sheets",
   .gapOne "google" "slides", .lit "notion.so", .lit "trello", .lit "asana",
   .lit "jira", .lit "confluence", .lit "linear.app", .lit "figma.com"]

/-- `app_name.lower().strip()` as a code list. -/
def appKey (s : String) : List Nat := stripCodes (codes s)

/-- Membership of the lowered process name in a process set. -/
def memProc (set : List String) (app : List Nat) : Bool :=
  set.any (fun p => codes p == app)

/-- `_categorize_browser_title`: productivity patterns first, then
distraction, then communication, then research, else generic Browsing. -/
def categorizeBrowserTitle (title : List Nat) : Category :=
  if anySearch PRODUCTIVITY_TITLE_PATTERNS title then .productivity
  else if anySearch DISTRACTION_TITLE_PATTERNS title then .distraction
  else if anySearch COMMUNICATION_TITLE_PATTERNS title then .communication
  else if anySearch RESEARCH_TITLE_PATTERNS title then .research
  else .browsing

/-- `_categorize_by_title`: research patterns first, then distraction,
then communication, then productivity, else Other. -/
def categorizeByTitle (title : List Nat) : Category :=
  if anySearch RESEARCH_TITLE_PATTERNS title then .research
  else if anySearch DISTRACTION_TITLE_PATTERNS title then .distraction
  else if anySearch COMMUNICATION_TITLE_PATTERNS title then .communication
  else if anySearch PRODUCTIVITY_TITLE_PATTERNS title then .productivity
  else .other

/-- `categorize(app_name, window_title)` from src/categorizer.py.  Note
that this function takes no user-rule input: the source consults no
`USER_RULES` object anywhere. -/
def categorize (appName windowTitle : String) : Category :=
  let appLower := appKey appName
  let title := stripCodes (codes windowTitle)
  if memProc DEV_PROCESSES appLower then .development
  else if memProc COMMUNICATION_PROCESSES appLower then .communication
  else if memProc PRODUCTIVITY_PROCESSES appLower then .productivity
  else if memProc DISTRACTION_PROCESSES appLower then .distraction
  else if memProc BROWSER_PROCESSES appLower then categorizeBrowserTitle title
  else categorizeByTitle title

/-- The general title cascade in the order THE SPEC CLAIMS it runs
(productivity first, then distraction, then communication, then research,
else Other) — written from the spec's words, for comparison with
`categorizeByTitle`, which is written from the source. -/
def categorizeByTitleClaimedOrder (title : List Nat) : Category :=
  if anySearch PRODUCTIVITY_TITLE_PATTERNS title then .productivity
  else if anySearch DISTRACTION_TITLE_PATTERNS title then .distraction
  else if anySearch COMMUNICATION_TITLE_PATTERNS title then .communication
  else if anySearch RESEARCH_TITLE_PATTERNS title then .research
  else .other

/-!
## Activity tracker segment finalization (src/tracker.py)

`ActivityRecord.finalize` and `ActivityTracker._finalize_and_save` are
embedded directly; timestamps are rationals (seconds).  The store write
(`db.insert_activity`) can fail; the single `try` in the source is
modelled by a `writeOk` flag, and the number of insert attempts the code
makes is recorded in the outcome.
-/

/-- `ActivityRecord` from src/tracker.py (in-progress or completed). -/
structure ActivityRecord where
  appName : String
  windowTitle : String
  startTime : ℚ
  endTime : Option ℚ := none
  durationSeconds : ℚ := 0
  category : Category := .other
  memoryMb : ℚ := 0
  cpuPercent : ℚ := 0
  pid : ℕ := 0
  memorySamples : List ℚ := []
  cpuSamples : List ℚ := []
  deriving DecidableEq

/-- `ActivityRecord.finalize`: set end time, compute duration, average
the resource samples (only when samples exist). -/
def ActivityRecord.finalize (r : ActivityRecord) (now : ℚ) : ActivityRecord :=
  { r with
    endTime := some now
    durationSeconds := now - r.startTime
    memoryMb :=
      if r.memorySamples.isEmpty then r.memoryMb
      else r.memorySamples.sum / r.memorySamples.length
    cpuPercent :=
      if r.cpuSamples.isEmpty then r.cpuPercent
      else r.cpuSamples.sum / r.cpuSamples.length }

/-- One row of the `activity_log` table. -/
structure ActivityRow where
  appName : String
  windowTitle : String
  startTime : ℚ
  endTime : ℚ
  durationSeconds : ℚ
  category : Category
  memoryMb : ℚ
  cpuPercent : ℚ
  pid : ℕ
  deriving DecidableEq

/-- The row `db.insert_activity` writes for a finalized record (the
insert rounds duration, memory and cpu to two decimals). -/
def activityRowOf (r : ActivityRecord) (endT : ℚ) : ActivityRow :=
  { appName := r.appName
    windowTitle := r.windowTitle
    startTime := r.startTime
    endTime := endT
    durationSeconds := pyRoundTo 2 r.durationSeconds
    category := r.category
    memoryMb := pyRoundTo 2 r.memoryMb
    cpuPercent := pyRoundTo 2 r.cpuPercent
    pid := r.pid }

/-- Outcome of `_finalize_and_save`: the store contents afterwards, how
many times `db.insert_activity` was invoked, and whether the activity
was logged (`total_logged` incremented). -/
structure SaveOutcome where
  store : List ActivityRow
  insertAttempts : ℕ
  logged : Bool
  deriving DecidableEq

/-- `ActivityTracker._finalize_and_save`: finalize the record; return
without any write when the duration is below `min_duration`; otherwise
attempt the insert once, swallowing a failure. -/
def finalizeAndSave (minDuration now : ℚ) (r : ActivityRecord)
    (writeOk : Bool) (store : List ActivityRow) : SaveOutcome :=
  let fin := r.finalize now
  if fin.durationSeconds < minDuration then
    { store := store, insertAttempts := 0, logged := false }
  else if writeOk then
    { store := store ++ [activityRowOf fin now], insertAttempts := 1, logged := true }
  else
    { store := store, insertAttempts := 1, logged := false }

/-!
## Storage aggregation layer (src/database.py)

`activity_log` rows are keyed for aggregation by the calendar-date
component of `start_time` (the query `start_time LIKE date || '%'`), so
the embedding carries that date directly.  `upsert_daily_stats`
recomputes every aggregate for one date from the log and writes with
`INSERT ... ON CONFLICT(date) DO UPDATE`; the `daily_stats` table is a
row list with a replace-on-same-date upsert.
-/

/-- A row of `activity_log` as seen by the aggregation queries. -/
structure LogRow where
  date : String
  appName : String
  category : Category
  durationSeconds : ℚ
  deriving DecidableEq

/-- `PRODUCTIVE_CATEGORIES` of src/database.py. -/
def PRODUCTIVE_CATEGORIES : List Category := [.development, .research, .productivity]

/-- `DISTRACTION_CATEGORIES` of src/database.py. -/
def DISTRACTION_CATEGORIES : List Category := [.distraction]

/-- Rows of the log whose `start_time` falls on the given date. -/
def rowsFor (log : List LogRow) (d : String) : List LogRow :=
  log.filter (fun r => r.date == d)

/-- `COALESCE(SUM(duration_seconds), 0)` over a row list. -/
def sumDur (rows : List LogRow) : ℚ :=
  (rows.map (fun r => r.durationSeconds)).sum

/-- `GROUP BY key ORDER BY SUM(duration_seconds) DESC LIMIT 1`: the keys
in first-appearance order with their duration totals. -/
def keyTotals (key : LogRow → String) (rows : List LogRow) : List (String × ℚ) :=
  ((rows.map key).eraseDups).map
    (fun a => (a, sumDur (rows.filter (fun r => key r == a))))

/-- The key with the maximal total (first such key), or `""` when the
row list is empty (`row[0] if row else ""`). -/
def topKey (pairs : List (String × ℚ)) : String :=
  match pairs with
  | [] => ""
  | p :: rest =>
      (rest.foldl (fun (best : String × ℚ) x => if best.2 < x.2 then x else best) p).1

/-- The printed category string, as stored in `activity_log.category`. -/
def Category.str : Category → String
  | .development => "Development"
  | .browsing => "Browsing"
  | .research => "Research"
  | .communication => "Communication"
  | .productivity => "Productivity"
  | .distraction => "Distraction"
  | .other => "Other"

/-- One row of the `daily_stats` table. -/
structure DailyStatRow where
  date : String
  totalSeconds : ℚ
  productiveSeconds : ℚ
  distractionSeconds : ℚ
  topApp : String
  topCategory : String
  sessionCount : ℕ
  deriving DecidableEq

/-- The aggregate row `upsert_daily_stats` computes for a date: total,
productive and distraction durations, top app, top category and session
count, all recomputed from the raw log. -/
def computeDailyStat (log : List LogRow) (d : String) : DailyStatRow :=
  let rows := rowsFor log d
  { date := d
    totalSeconds := sumDur rows
    productiveSeconds :=
      sumDur (rows.filter (fun r => PRODUCTIVE_CATEGORIES.contains r.category))
    distractionSeconds :=
      sumDur (rows.filter (fun r => DISTRACTION_CATEGORIES.contains r.category))
    topApp := topKey (keyTotals (fun r => r.appName) rows)
    topCategory := topKey (keyTotals (fun r => r.category.str) rows)
    sessionCount := rows.length }

/-- `INSERT ... ON CONFLICT(date) DO UPDATE` on `daily_stats`: replace
the row with the same date when one exists, else append. -/
def upsertDailyRow (table : List DailyStatRow) (r : DailyStatRow) :
    List DailyStatRow :=
  if table.any (fun row => row.date == r.date) then
    table.map (fun row => if row.date == r.date then r else row)
  else table ++ [r]

/-- `upsert_daily_stats(d)`: recompute the aggregates for `d` from the
log and upsert them keyed on the date. -/
def upsertDailyStats (log : List LogRow) (table : List DailyStatRow)
    (d : String) : List DailyStatRow :=
  upsertDailyRow table (computeDailyStat log d)

/-- The per-row score computed by `get_productivity_heatmap_data`:
`total_seconds` and `productive_seconds` may be NULL (`or 0` in the
source); the score is `round(productive / total * 100)` when the total
is positive and `0` otherwise. -/
def heatScore (totalSeconds productiveSeconds : Option ℚ) : ℤ :=
  let total := totalSeconds.getD 0
  let productive := productiveSeconds.getD 0
  if 0 < total then pyRoundInt (productive / total * 100) else 0

/-!
## Focus session monitor (src/focus.py)

`FocusSession.focus_score` is a pure function of the two accumulators.
`FocusMonitor._check_foreground` is a step function on the monitor's
tracking state, fed one foreground observation per poll tick; a tick on
which the window read fails (no handle, vanished process, exception)
performs no state change, exactly as the early returns in the source.
-/

/-- `FocusSession.focus_score`: 100 when no time has elapsed, otherwise
the focused share of elapsed time in percent, rounded to one decimal. -/
def focusScore (focusedSeconds distractedSeconds : ℚ) : ℚ :=
  let total := focusedSeconds + distractedSeconds
  if total ≤ 0 then 100
  else pyRoundTo 1 (focusedSeconds / total * 100)

/-- An `Interruption` record. -/
structure InterruptionRec where
  timestamp : ℚ
  appName : String
  windowTitle : String
  category : Category
  durationSeconds : ℚ := 0
  deriving DecidableEq

/-- The mutable part of a running `FocusSession`. -/
structure FocusSessionState where
  interruptions : List InterruptionRec := []
  focusedSeconds : ℚ := 0
  distractedSeconds : ℚ := 0
  deriving DecidableEq

/-- The monitor's tracking state (`_last_app`, `_last_category`,
`_distraction_start`, the session, and a count of `on_distraction`
callback invocations). `lastCategoryActive` models
`_last_category == "DISTRACTION_ACTIVE"`. -/
structure MonitorState where
  lastApp : String := ""
  lastCategoryActive : Bool := false
  distractionStart : Option ℚ := none
  session : FocusSessionState := {}
  distractionCallbacks : ℕ := 0
  deriving DecidableEq

/-- The monitor state right after `start()`. -/
def monitorInit : MonitorState := {}

/-- One poll tick's foreground reading: the process name, window title
and wall-clock time, or `fail` when the read did not produce an
observation (no foreground handle, vanished/denied process, exception). -/
inductive Tick
  | fail
  | seen (appName windowTitle : String) (now : ℚ)

/-- Close out the most recent interruption's duration
(`self.session.interruptions[-1].duration_seconds = duration`). -/
def setLastDuration (d : ℚ) : List InterruptionRec → List InterruptionRec
  | [] => []
  | [r] => [{ r with durationSeconds := d }]
  | r :: rest => r :: setLastDuration d rest

/-- `FocusMonitor._check_foreground` as a step function: categorize the
foreground window, detect Focused→Distracted edges (opening an
interruption and firing the callback exactly on the edge), close the
interruption on the return edge, and accumulate the poll interval into
the matching accumulator. -/
def checkForeground (pollInterval : ℚ) (st : MonitorState) : Tick → MonitorState
  | .fail => st
  | .seen appName windowTitle now =>
      let category := categorize appName windowTitle
      let isDistraction := category == Category.distraction
      if isDistraction then
        if !st.lastCategoryActive then
          { lastApp := appName
            lastCategoryActive := true
            distractionStart := some now
            session :=
              { st.session with
                interruptions := st.session.interruptions ++
                  [{ timestamp := now, appName := appName,
                     windowTitle := windowTitle, category := category }]
                distractedSeconds := st.session.distractedSeconds + pollInterval }
            distractionCallbacks := st.distractionCallbacks + 1 }
        else
          { st with
            lastApp := appName
            session :=
              { st.session with
                distractedSeconds := st.session.distractedSeconds + pollInterval } }
      else
        let closed :=
          match st.distractionStart with
          | some ts =>
              if st.lastCategoryActive then
                { st with
                  distractionStart := none
                  session :=
                    { st.session with
                      interruptions :=
                        setLastDuration (now - ts) st.session.interruptions } }
              else st
          | none => st
        { closed with
          lastApp := appName
          lastCategoryActive := false
          session :=
            { closed.session with
              focusedSeconds := closed.session.focusedSeconds + pollInterval } }

/-- Run the monitor over a sequence of poll-tick observations. -/
def runMonitor (pollInterval : ℚ) (st : MonitorState) (ticks : List Tick) :
    MonitorState :=
  ticks.foldl (checkForeground pollInterval) st

/-- The distraction flag a successful tick's observation produces. -/
def tickDistraction : Tick → Option Bool
  | .fail => none
  | .seen appName windowTitle _ =>
      some (categorize appName windowTitle == Category.distraction)

/-- Number of false→true edges in a flag sequence, starting from the
given current flag. -/
def edgeCount (active : Bool) : List Bool → ℕ
  | [] => 0
  | b :: bs => (if b && !active then 1 else 0) + edgeCount b bs

/-!
## Focus session persistence lifecycle (src/focus.py)

`_save_session` performs an unconditional insert into `focus_sessions`
whenever a session object exists.  The run loop saves on natural
completion (`is_complete`), and `stop()` saves again whenever the
session object exists.  The lifecycle is embedded as a step relation
over the two termination events to count inserts.
-/

/-- Termination-path events of a focus monitor: the run loop observing
completion, and an external `stop()` call. -/
inductive FocusEvent
  | naturalComplete
  | stopCall

/-- Lifecycle state: whether the loop is running, whether `start()` has
created a session object, and how many `insert_focus_session` calls
have been made. -/
structure FocusLifecycleState where
  running : Bool
  started : Bool
  insertCount : ℕ
  deriving DecidableEq

/-- State right after `FocusMonitor.start()`. -/
def focusStarted : FocusLifecycleState :=
  { running := true, started := true, insertCount := 0 }

/-- Effect of one termination-path event, from the source: the run loop
saves (once) when it observes completion while running; `stop()` sets
`_running = False` and then saves whenever `self.session` exists, with
no once-only guard. -/
def focusLifecycleStep (st : FocusLifecycleState) : FocusEvent → FocusLifecycleState
  | .naturalComplete =>
      if st.running then
        { st with running := false, insertCount := st.insertCount + 1 }
      else st
  | .stopCall =>
      { st with
        running := false
        insertCount := if st.started then st.insertCount + 1 else st.insertCount }

/-- Run the lifecycle over a sequence of termination events. -/
def runFocusLifecycle (st : FocusLifecycleState) (evs : List FocusEvent) :
    FocusLifecycleState :=
  evs.foldl focusLifecycleStep st

/-!
## Shutdown guard (src/system.py)

`_do_flush` flips `_flushed` under the lock and invokes the injected
callback only on the flip.  Every termination path (`WM_QUERYENDSESSION`,
`WM_ENDSESSION` with a truthy `wParam`, `WM_CLOSE`, `stop()`, the signal
handler, the atexit hook) funnels into `_do_flush`;
`WM_ENDSESSION` with `wParam = 0` (shutdown aborted) does not flush.
-/

/-- Guard state after `start()`: the `_flushed` flag and the number of
invocations of the injected flush callback. -/
structure GuardState where
  flushed : Bool
  callbackCalls : ℕ
  deriving DecidableEq

/-- State right after `ShutdownGuard.start(flush_callback)`. -/
def guardStarted : GuardState := { flushed := false, callbackCalls := 0 }

/-- `ShutdownGuard._do_flush`: return immediately when already flushed,
else mark flushed and invoke the callback. -/
def doFlush (st : GuardState) : GuardState :=
  if st.flushed then st
  else { flushed := true, callbackCalls := st.callbackCalls + 1 }

/-- The termination-path events the guard registers for. -/
inductive GuardEvent
  | queryEndSession
  | endSession (wparam : Bool)
  | wmClose
  | stopCall
  | signalHandler
  | atexitHook

/-- Whether an event's handler reaches `_do_flush` (all do, except
`WM_ENDSESSION` with a falsy `wParam`). -/
def GuardEvent.flushes : GuardEvent → Bool
  | .endSession w => w
  | _ => true

/-- Effect of one termination-path event on the guard state, from the
handlers in src/system.py. -/
def guardStep (st : GuardState) : GuardEvent → GuardState
  | .queryEndSession => doFlush st
  | .endSession w => if w then doFlush st else st
  | .wmClose => doFlush st
  | .stopCall => doFlush st
  | .signalHandler => doFlush st
  | .atexitHook => doFlush st

/-- Run the guard over a sequence of termination-path events. -/
def runGuard (st : GuardState) (evs : List GuardEvent) : GuardState :=
  evs.foldl guardStep st

/-!
## Helper lemmas
-/

theorem guardStep_eq (st : GuardState) (e : GuardEvent) :
    guardStep st e = if e.flushes then doFlush st else st := by
  cases e with
  | endSession w => cases w <;> rfl
  | queryEndSession => rfl
  | wmClose => rfl
  | stopCall => rfl
  | signalHandler => rfl
  | atexitHook => rfl

theorem runGuard_spec (evs : List GuardEvent) (st : GuardState) :
    (runGuard st evs).flushed = (st.flushed || evs.any (fun e => e.flushes)) ∧
    (runGuard st evs).callbackCalls =
      st.callbackCalls +
        (if st.flushed then 0
         else if evs.any (fun e => e.flushes) then 1 else 0) := by
  induction evs generalizing st with
  | nil => simp [runGuard]
  | cons e rest ih =>
    have hstep : runGuard st (e :: rest) = runGuard (guardStep st e) rest := rfl
    rw [hstep, guardStep_eq]
    rcases hf : e.flushes with _ | _
    · simpa [hf] using ih st
    · simp only [if_pos rfl]
      rcases hfl : st.flushed with _ | _
      · have := ih (doFlush st)
        simp [doFlush, hfl] at this
        simp [doFlush, hf, hfl, this.1, this.2]
      · have := ih (doFlush st)
        simp [doFlush, hfl] at this
        simp [doFlush, hf, hfl, this.1, this.2]

theorem filter_map_replace {α : Type} (p : α → Bool) (r : α) (hp : p r = true)
    (l : List α) :
    ((l.map (fun x => if p x then r else x)).filter p).length =
      (l.filter p).length := by
  induction l with
  | nil => rfl
  | cons x xs ih =>
    by_cases hx : p x = true
    · simp [hx, hp, ih]
    · simp [hx, ih]

theorem map_replace_idem {α : Type} (p : α → Bool) (r : α) (hp : p r = true)
    (l : List α) :
    (l.map (fun x => if p x then r else x)).map (fun x => if p x then r else x) =
      l.map (fun x => if p x then r else x) := by
  induction l with
  | nil => rfl
  | cons x xs ih =>
    by_cases hx : p x = true
    · simp [hx, hp, ih]
    · simp [hx, ih]

theorem map_replace_of_not_any {α : Type} (p : α → Bool) (r : α)
    (l : List α) (h : l.any p = false) :
    l.map (fun x => if p x then r else x) = l := by
  induction l with
  | nil => rfl
  | cons x xs ih =>
    simp only [List.any_cons, Bool.or_eq_false_iff] at h
    simp [h.1, ih h.2]

theorem any_map_replace {α : Type} (p : α → Bool) (r : α) (hp : p r = true)
    (l : List α) :
    (l.map (fun x => if p x then r else x)).any p = l.any p := by
  induction l with
  | nil => rfl
  | cons x xs ih =>
    by_cases hx : p x = true
    · simp [hx, hp, ih]
    · simp [hx, ih]

theorem filter_pos_of_any {α : Type} (p : α → Bool) (l : List α)
    (h : l.any p = true) : 0 < (l.filter p).length := by
  rcases List.any_eq_true.mp h with ⟨x, hmem, hx⟩
  have hxf : x ∈ l.filter p := List.mem_filter.mpr ⟨hmem, hx⟩
  exact List.length_pos.mpr (List.ne_nil_of_mem hxf)

theorem setLastDuration_length (d : ℚ) (l : List InterruptionRec) :
    (setLastDuration d l).length = l.length := by
  induction l with
  | nil => rfl
  | cons x xs ih =>
    cases xs with
    | nil => rfl
    | cons y ys => simp [setLastDuration] at ih ⊢; omega

theorem runMonitor_spec (pollInterval : ℚ) (ticks : List Tick) (st : MonitorState) :
    (runMonitor pollInterval st ticks).session.interruptions.length =
      st.session.interruptions.length +
        edgeCount st.lastCategoryActive (ticks.filterMap tickDistraction) ∧
    (runMonitor pollInterval st ticks).distractionCallbacks =
      st.distractionCallbacks +
        edgeCount st.lastCategoryActive (ticks.filterMap tickDistraction) := by
  induction ticks generalizing st with
  | nil => simp [runMonitor, edgeCount]
  | cons t rest ih =>
    have hstep : runMonitor pollInterval st (t :: rest) =
        runMonitor pollInterval (checkForeground pollInterval st t) rest := rfl
    cases t with
    | fail => simpa [hstep, tickDistraction, checkForeground] using ih st
    | seen a w now =>
      rw [hstep]
      have hfm : (Tick.seen a w now :: rest).filterMap tickDistraction =
          (categorize a w == Category.distraction) :: rest.filterMap tickDistraction := by
        simp [tickDistraction]
      rw [hfm]
      have h3 : (checkForeground pollInterval st (.seen a w now)).session.interruptions.length =
            st.session.interruptions.length +
              (if (categorize a w == Category.distraction) && !st.lastCategoryActive
               then 1 else 0) ∧
          (checkForeground pollInterval st (.seen a w now)).distractionCallbacks =
            st.distractionCallbacks +
              (if (categorize a w == Category.distraction) && !st.lastCategoryActive
               then 1 else 0) ∧
          (checkForeground pollInterval st (.seen a w now)).lastCategoryActive =
            (categorize a w == Category.distraction) := by
        rcases hb : (categorize a w == Category.distraction) with _ | _
        · cases hds : st.distractionStart with
          | none => simp [checkForeground, hb, hds]
          | some ts =>
            rcases hact : st.lastCategoryActive with _ | _
            · simp [checkForeground, hb, hds, hact]
            · simp [checkForeground, hb, hds, hact, setLastDuration_length]
        · rcases hact : st.lastCategoryActive with _ | _
          · simp [checkForeground, hb, hact]
          · simp [checkForeground, hb, hact]
      have hrest := ih (checkForeground pollInterval st (.seen a w now))
      rw [h3.2.2] at hrest
      rw [hrest.1, hrest.2, h3.1, h3.2.1]
      simp only [edgeCount]
      omega

/-!
## Claim theorems
-/

/-- C1: for every sequence of termination-path events (window-message
shutdown query, window-message end-session, window close, explicit stop,
signal handler, atexit), in any order and multiplicity, the guard
invokes its injected flush callback at most once in total, at least once
(hence exactly once) when any flushing path fires, and every `_do_flush`
after the first is a no-op. -/
theorem shutdown_guard_single_flush (evs : List GuardEvent) :
    (runGuard guardStarted evs).callbackCalls ≤ 1 ∧
    ((∃ e ∈ evs, e.flushes = true) →
      (runGuard guardStarted evs).callbackCalls = 1) ∧
    (∀ st : GuardState, st.flushed = true → doFlush st = st) := by
  have h := runGuard_spec evs guardStarted
  refine ⟨?_, ?_, ?_⟩
  · rw [h.2]
    simp only [guardStarted, Bool.false_eq_true, if_false]
    split <;> omega
  · intro hex
    have hany : evs.any (fun e => e.flushes) = true :=
      List.any_eq_true.mpr hex
    rw [h.2]
    simp [guardStarted, hany]
  · intro st hst
    simp [doFlush, hst]

/-- Witness for the shutdown-guard claim: an interrupted session that
then receives a shutdown query and an explicit stop flushes once. -/
theorem shutdown_guard_single_flush_witness :
    (runGuard guardStarted
      [GuardEvent.signalHandler, GuardEvent.queryEndSession,
       GuardEvent.stopCall, GuardEvent.atexitHook]).callbackCalls = 1 :=
  (shutdown_guard_single_flush
      [GuardEvent.signalHandler, GuardEvent.queryEndSession,
       GuardEvent.stopCall, GuardEvent.atexitHook]).2.1
    ⟨GuardEvent.signalHandler, List.Mem.head _, rfl⟩

/-- C2: a finalized record whose duration is below the configured
minimum is never written (no insert attempt, store unchanged); one whose
duration meets the minimum is written when the store accepts the
insert. -/
theorem min_duration_gate (minDuration now : ℚ) (r : ActivityRecord)
    (writeOk : Bool) (store : List ActivityRow) :
    ((r.finalize now).durationSeconds < minDuration →
      finalizeAndSave minDuration now r writeOk store =
        { store := store, insertAttempts := 0, logged := false }) ∧
    (minDuration ≤ (r.finalize now).durationSeconds → writeOk = true →
      finalizeAndSave minDuration now r writeOk store =
        { store := store ++ [activityRowOf (r.finalize now) now],
          insertAttempts := 1, logged := true }) := by
  constructor
  · intro h
    simp [finalizeAndSave, h]
  · intro h hw
    simp [finalizeAndSave, not_lt.mpr h, hw]

/-- Witness for the minimum-duration gate: a 1-second segment is
discarded and a 5-second segment is stored, with a 2-second minimum. -/
theorem min_duration_gate_witness :
    finalizeAndSave 2 1 { appName := "a", windowTitle := "b", startTime := 0 }
        true [] =
      { store := [], insertAttempts := 0, logged := false } ∧
    finalizeAndSave 2 5 { appName := "a", windowTitle := "b", startTime := 0 }
        true [] =
      { store := [activityRowOf
          (({ appName := "a", windowTitle := "b", startTime := 0 } :
              ActivityRecord).finalize 5) 5],
        insertAttempts := 1, logged := true } :=
  ⟨(min_duration_gate 2 1 _ true []).1 (by norm_num [ActivityRecord.finalize]),
   (min_duration_gate 2 5 _ true []).2 (by norm_num [ActivityRecord.finalize]) rfl⟩

/-- Replaying the same upsert row is the identity, and the upsert leaves
exactly one row for its date when the table respected date
uniqueness. -/
theorem upsertDailyRow_spec (table : List DailyStatRow) (r : DailyStatRow)
    (huniq : (table.filter (fun row => row.date == r.date)).length ≤ 1) :
    upsertDailyRow (upsertDailyRow table r) r = upsertDailyRow table r ∧
    ((upsertDailyRow table r).filter
        (fun row => row.date == r.date)).length = 1 := by
  have hpr : (r.date == r.date) = true := beq_self_eq_true r.date
  set p : DailyStatRow → Bool := fun row => row.date == r.date with hpdef
  by_cases hany : table.any p = true
  · have h1 : upsertDailyRow table r =
        table.map (fun x => if p x then r else x) := by
      simp only [upsertDailyRow, hpdef]
      rw [if_pos hany]
    have hmap_any : (table.map (fun x => if p x then r else x)).any p = true :=
      (any_map_replace p r hpr table).trans hany
    constructor
    · rw [h1]
      simp only [upsertDailyRow, hpdef]
      rw [if_pos hmap_any]
      exact map_replace_idem p r hpr table
    · rw [h1, filter_map_replace p r hpr table]
      have hpos := filter_pos_of_any p table hany
      omega
  · have hany' : table.any p = false := by simpa using hany
    have h1 : upsertDailyRow table r = table ++ [r] := by
      simp only [upsertDailyRow, hpdef]
      rw [if_neg hany]
    have hnil : table.filter p = [] := by
      rw [List.filter_eq_nil_iff]
      intro x hx hpx
      exact (List.any_eq_false.mp hany' x hx) hpx
    constructor
    · rw [h1]
      simp only [upsertDailyRow, hpdef]
      have happ : (table ++ [r]).any p = true := by
        rw [List.any_append]
        simp [hpr, hpdef]
      rw [if_pos happ, List.map_append, map_replace_of_not_any p r table hany']
      simp [hpr]
    · rw [h1, List.filter_append, hnil]
      simp [hpdef, List.filter_cons, hpr]

/-- C3: with the date-uniqueness of `daily_stats` (its UNIQUE
constraint), a second `upsert_daily_stats(d)` with no intervening log
writes leaves the table exactly as after the first call, and exactly one
row for `d` is present: insert-or-replace keyed on date, never an
append. -/
theorem upsert_daily_stats_idempotent (log : List LogRow)
    (table : List DailyStatRow) (d : String)
    (huniq : (table.filter (fun row => row.date == d)).length ≤ 1) :
    upsertDailyStats log (upsertDailyStats log table d) d =
      upsertDailyStats log table d ∧
    ((upsertDailyStats log table d).filter
        (fun row => row.date == d)).length = 1 := by
  have h := upsertDailyRow_spec table (computeDailyStat log d) huniq
  exact h

/-- A one-row activity log used by the upsert-idempotence witness. -/
def sampleLog : List LogRow :=
  [{ date := "2025-01-01", appName := "code.exe", category := Category.development, durationSeconds := 3600 }]

/-- Witness for upsert idempotence: one logged hour of development on a
date, upserted into an empty table. -/
theorem upsert_daily_stats_idempotent_witness :
    upsertDailyStats sampleLog
        (upsertDailyStats sampleLog [] "2025-01-01") "2025-01-01" =
      upsertDailyStats sampleLog [] "2025-01-01" ∧
    ((upsertDailyStats sampleLog [] "2025-01-01").filter
        (fun row => row.date == "2025-01-01")).length = 1 :=
  upsert_daily_stats_idempotent sampleLog [] "2025-01-01" (by simp)

/-- C4: over every sequence of poll-tick observations from session
start, the number of Interruption records appended and the number of
`on_distraction` callback invocations both equal the number of
Focused-to-Distracted transitions in the observation sequence;
consecutive distracted ticks after an edge add nothing. -/
theorem interruptions_count_edges (pollInterval : ℚ) (ticks : List Tick) :
    (runMonitor pollInterval monitorInit ticks).session.interruptions.length =
      edgeCount false (ticks.filterMap tickDistraction) ∧
    (runMonitor pollInterval monitorInit ticks).distractionCallbacks =
      edgeCount false (ticks.filterMap tickDistraction) := by
  have h := runMonitor_spec pollInterval ticks monitorInit
  simpa [monitorInit] using h

/-- C5 (code evaluation at the failing inputs): a focus session that
completes naturally and is then stopped — the very sequence the CLI's
`finally: monitor.stop()` produces — inserts its row twice, and so do
two consecutive `stop()` calls; the claimed exactly-once persistence
fails on the code. -/
theorem focus_session_double_insert :
    (runFocusLifecycle focusStarted
        [FocusEvent.naturalComplete, FocusEvent.stopCall]).insertCount = 2 ∧
    (runFocusLifecycle focusStarted
        [FocusEvent.stopCall, FocusEvent.stopCall]).insertCount = 2 :=
  ⟨rfl, rfl⟩

/-- C6: with nonnegative accumulators, the focus score lies in
[0, 100], equals exactly 100 when the elapsed total is zero (or
non-positive), and otherwise equals focused/(focused+distracted)×100
rounded to one decimal place. -/
theorem focus_score_in_range (f d : ℚ) (hf : 0 ≤ f) (hd : 0 ≤ d) :
    (0 ≤ focusScore f d ∧ focusScore f d ≤ 100) ∧
    (f + d ≤ 0 → focusScore f d = 100) ∧
    (0 < f + d → focusScore f d = pyRoundTo 1 (f / (f + d) * 100)) := by
  by_cases h : f + d ≤ 0
  · refine ⟨⟨?_, ?_⟩, fun _ => ?_, fun hpos => absurd hpos (not_lt.mpr h)⟩ <;>
      simp [focusScore, h]
  · push_neg at h
    have heq : focusScore f d = pyRoundTo 1 (f / (f + d) * 100) := by
      simp [focusScore, not_le.mpr h]
    have hratio0 : 0 ≤ f / (f + d) := div_nonneg hf (le_of_lt h)
    have hratio1 : f / (f + d) ≤ 1 := by
      rw [div_le_one h]
      linarith
    have h0 : 0 ≤ f / (f + d) * 100 := by positivity
    have h100 : f / (f + d) * 100 ≤ ((100 : ℤ) : ℚ) := by
      push_cast
      nlinarith
    refine ⟨⟨?_, ?_⟩, fun hle => absurd hle (not_le.mpr h), fun _ => heq⟩
    · rw [heq]
      exact pyRoundTo_nonneg h0
    · rw [heq]
      have := pyRoundTo_le (n := 1) h100
      push_cast at this
      linarith

/-- Witness for the focus-score range: ten focused minutes and one
distracted minute score 90.9. -/
theorem focus_score_in_range_witness :
    (0 ≤ focusScore 600 60 ∧ focusScore 600 60 ≤ 100) ∧
    (0 < (600 : ℚ) + 60 →
      focusScore 600 60 = pyRoundTo 1 (600 / ((600 : ℚ) + 60) * 100)) :=
  ⟨(focus_score_in_range 600 60 (by norm_num) (by norm_num)).1,
   (focus_score_in_range 600 60 (by norm_num) (by norm_num)).2.2⟩

/-- C7 counterexample: a 5-second segment (minimum 2) whose store write
fails is dropped after a single insert attempt — the code never makes
the claimed second attempt. -/
theorem finalize_no_retry_counterexample :
    (finalizeAndSave 2 5 { appName := "a", windowTitle := "b", startTime := 0 }
        false []).insertAttempts = 1 ∧
    (finalizeAndSave 2 5 { appName := "a", windowTitle := "b", startTime := 0 }
        false []).store = [] ∧
    ¬ 2 ≤ (finalizeAndSave 2 5 { appName := "a", windowTitle := "b", startTime := 0 }
        false []).insertAttempts := by
  refine ⟨?_, ?_, ?_⟩ <;> norm_num [finalizeAndSave, ActivityRecord.finalize]

/-- C7 amended: when a segment meets the minimum duration and the store
write fails, the code makes exactly one insert attempt and drops the
segment silently — there is no retry. -/
theorem finalize_single_attempt_on_failure (minDuration now : ℚ)
    (r : ActivityRecord) (store : List ActivityRow)
    (h : minDuration ≤ (r.finalize now).durationSeconds) :
    finalizeAndSave minDuration now r false store =
      { store := store, insertAttempts := 1, logged := false } := by
  simp [finalizeAndSave, not_lt.mpr h]

/-- Witness for the single-attempt behaviour at a concrete segment. -/
theorem finalize_single_attempt_on_failure_witness :
    finalizeAndSave 2 5 { appName := "a", windowTitle := "b", startTime := 0 }
        false [] =
      { store := [], insertAttempts := 1, logged := false } :=
  finalize_single_attempt_on_failure 2 5
    { appName := "a", windowTitle := "b", startTime := 0 } []
    (by norm_num [ActivityRecord.finalize])

/-- C8 counterexample: for the non-browser process `myeditor.exe` and a
title matching both a research pattern (`github.com`) and a
productivity pattern (`trello`), the code's general cascade yields
Research while the claimed browser-order cascade yields Productivity —
the two orders differ. -/
theorem general_cascade_order_counterexample :
    categorize "myeditor.exe" "github.com - Trello" = Category.research ∧
    categorizeByTitleClaimedOrder
        (stripCodes (codes "github.com - Trello")) = Category.productivity ∧
    Category.research ≠ Category.productivity :=
  ⟨by decide, by decide, by decide⟩

/-- C8 amended: `categorize` is total over the closed category set, and
for a process in none of the built-in process sets (and not a browser)
it falls back to the general title cascade — which scans research
patterns first, then distraction, then communication, then productivity,
then Other (not the browser sub-classification's order). -/
theorem categorize_total_and_fallback (appName windowTitle : String)
    (h1 : memProc DEV_PROCESSES (appKey appName) = false)
    (h2 : memProc COMMUNICATION_PROCESSES (appKey appName) = false)
    (h3 : memProc PRODUCTIVITY_PROCESSES (appKey appName) = false)
    (h4 : memProc DISTRACTION_PROCESSES (appKey appName) = false)
    (h5 : memProc BROWSER_PROCESSES (appKey appName) = false) :
    categorize appName windowTitle ∈ allCategories ∧
    categorize appName windowTitle =
      categorizeByTitle (stripCodes (codes windowTitle)) := by
  constructor
  · cases hres : categorize appName windowTitle <;> simp [allCategories]
  · simp [categorize, h1, h2, h3, h4, h5]

/-- Witness for totality and the general-cascade fallback at an unknown
process. -/
theorem categorize_total_and_fallback_witness :
    categorize "myeditor.exe" "quarterly report" ∈ allCategories ∧
    categorize "myeditor.exe" "quarterly report" =
      categorizeByTitle (stripCodes (codes "quarterly report")) :=
  categorize_total_and_fallback "myeditor.exe" "quarterly report"
    (by decide) (by decide) (by decide) (by decide) (by decide)

/-- C9 (code evaluation at the failing input): `categorize` consults no
user rules — the source defines no `USER_RULES` — so with the custom
distraction set containing `notepad.exe` (the repository's own test
fixture) the result is still Other, not the claimed Distraction. -/
theorem categorize_ignores_user_rules :
    categorize "notepad.exe" "Notes" = Category.other ∧
    Category.other ≠ Category.distraction :=
  ⟨by decide, by decide⟩

/-- Over nonnegative durations, a filtered duration sum is nonnegative
and bounded by the unfiltered sum. -/
theorem sumDur_filter_le (l : List LogRow) (q : LogRow → Bool)
    (hpos : ∀ r ∈ l, 0 ≤ r.durationSeconds) :
    0 ≤ sumDur (l.filter q) ∧ sumDur (l.filter q) ≤ sumDur l := by
  induction l with
  | nil => simp [sumDur]
  | cons x xs ih =>
    have hx := hpos x (List.Mem.head _)
    have hxs := ih (fun r hr => hpos r (List.mem_cons_of_mem x hr))
    by_cases hq : q x = true
    · simp only [List.filter_cons, hq, if_pos, sumDur, List.map_cons, List.sum_cons]
      constructor
      · have := hxs.1
        simp only [sumDur] at this
        linarith
      · have := hxs.2
        simp only [sumDur] at this
        linarith
    · simp only [List.filter_cons, hq, Bool.false_eq_true, if_false, sumDur,
        List.map_cons, List.sum_cons]
      constructor
      · exact (by simpa [sumDur] using hxs.1)
      · have := hxs.2
        simp only [sumDur] at this
        linarith

/-- Rows written by `upsert_daily_stats` satisfy the consistency the
heatmap claim relies on: with nonnegative raw durations, the productive
aggregate is nonnegative and bounded by the total. -/
theorem computeDailyStat_consistent (log : List LogRow) (d : String)
    (hpos : ∀ r ∈ log, 0 ≤ r.durationSeconds) :
    0 ≤ (computeDailyStat log d).productiveSeconds ∧
    (computeDailyStat log d).productiveSeconds ≤
      (computeDailyStat log d).totalSeconds := by
  have hsub : ∀ r ∈ rowsFor log d, 0 ≤ r.durationSeconds := fun r hr =>
    hpos r (List.mem_of_mem_filter hr)
  exact sumDur_filter_le (rowsFor log d)
    (fun r => PRODUCTIVE_CATEGORIES.contains r.category) hsub

/-- C10: for every daily row with a consistent aggregate
(0 ≤ productive ≤ total, both possibly NULL), the heatmap score lies in
[0, 100], and it is 0 — not 100, with no division — whenever the day's
total is zero or NULL. -/
theorem heatmap_score_range (t p : Option ℚ)
    (h0 : 0 ≤ p.getD 0) (h1 : p.getD 0 ≤ t.getD 0) :
    (0 ≤ heatScore t p ∧ heatScore t p ≤ 100) ∧
    (t.getD 0 = 0 → heatScore t p = 0) := by
  by_cases hpos : 0 < t.getD 0
  · have heq : heatScore t p = pyRoundInt (p.getD 0 / t.getD 0 * 100) := by
      simp [heatScore, hpos]
    have hratio0 : 0 ≤ p.getD 0 / t.getD 0 := div_nonneg h0 (le_of_lt hpos)
    have hratio1 : p.getD 0 / t.getD 0 ≤ 1 := by
      rw [div_le_one hpos]
      exact h1
    have hq0 : 0 ≤ p.getD 0 / t.getD 0 * 100 := by positivity
    have hq100 : p.getD 0 / t.getD 0 * 100 ≤ ((100 : ℤ) : ℚ) := by
      push_cast
      nlinarith
    refine ⟨⟨?_, ?_⟩, fun hz => absurd hz (by simpa using ne_of_gt hpos)⟩
    · rw [heq]; exact pyRoundInt_nonneg hq0
    · rw [heq]; exact pyRoundInt_le hq100
  · have heq : heatScore t p = 0 := by
      simp [heatScore, hpos]
    exact ⟨⟨by rw [heq], by rw [heq]; norm_num⟩, fun _ => heq⟩

/-- Witness for the heatmap score: a NULL-total day scores 0, and a
half-productive hour scores within range. -/
theorem heatmap_score_range_witness :
    heatScore (none : Option ℚ) (none : Option ℚ) = 0 ∧
    (0 ≤ heatScore (some 3600) (some 1800) ∧
      heatScore (some 3600) (some 1800) ≤ 100) :=
  ⟨(heatmap_score_range none none (by norm_num) (by norm_num)).2 rfl,
   (heatmap_score_range (some 3600) (some 1800)
      (by norm_num) (by norm_num)).1⟩

end TraceCli
